import Mathlib

/-!
Verification of the RenderAPI request-execution pipeline.

The Go sources are shallowly embedded: pure helpers become Lean functions,
the client's stateful execution path becomes explicit state passing over a
cache value and a ghost network-call counter, and Go's single-read request
body streams are modelled by a `consumed` flag (reading a consumed stream
yields the empty byte string, as `io.ReadAll` does at EOF).  Go `int`
arithmetic is modelled on `Int` with an explicit wrap at 2^63 where overflow
matters.  External stdlib collaborators (the JSON codec used by the
field-transform hook, the validity check of `json.Unmarshal`, the sha256
digest) are abstracted: either as explicit function parameters, or, for the
cache fingerprint, by an injective stand-in, since every claim depends only
on which inputs flow into them, not on the digests themselves.
-/

namespace RenderAPI

/-- Association-list lookup, modelling a read `m[k]` of a Go `map[string]V`. -/
def lookupKey {α : Type} (k : String) : List (String × α) → Option α
  | [] => none
  | (k', v) :: t => if k' = k then some v else lookupKey k t

/-- Association-list update, modelling a Go map assignment `m[k] = v`
(replace in place when the key exists, append otherwise). -/
def setKey {α : Type} (k : String) (v : α) : List (String × α) → List (String × α)
  | [] => [(k, v)]
  | (k', v') :: t => if k' = k then (k, v) :: t else (k', v') :: setKey k v t

/-- Association-list removal, modelling a Go `delete(m, k)`. -/
def eraseKey {α : Type} (k : String) : List (String × α) → List (String × α)
  | [] => []
  | (k', v') :: t => if k' = k then t else (k', v') :: eraseKey k t

/-- Character-list version of Go `strings.HasPrefix`. -/
def startsWithChars : List Char → List Char → Bool
  | _, [] => true
  | [], _ :: _ => false
  | c :: s, p :: ps => (c = p) && startsWithChars s ps

/-- Character-list version of Go `strings.Contains` (pattern first). -/
def containsChars (p : List Char) : List Char → Bool
  | [] => startsWithChars [] p
  | c :: s => startsWithChars (c :: s) p || containsChars p s

/-- Embeds `client.isRetryableError`'s pattern table (client.go), verbatim. -/
def retryablePatterns : List String :=
  ["connection refused", "connection reset", "timeout", "temporary failure",
   "EOF", "i/o timeout", "too many open files", "no such host"]

/-- Embeds `client.isRetryableError` for a non-nil error with message `errMsg`:
the source checks `strings.Contains(strings.ToLower(errMsg), pattern)` for
each entry of the pattern table; lowercasing is applied characterwise on the
message (all messages of interest are ASCII, where `Char.toLower` agrees with
Go's `strings.ToLower`). -/
def isRetryableError (errMsg : String) : Bool :=
  retryablePatterns.any (fun p => containsChars p.data (errMsg.data.map Char.toLower))

/-- Wrap a mathematical integer into the two's-complement int64 range,
modelling Go's defined wrap-around of signed-integer overflow. -/
def int64Wrap (n : Int) : Int := (n + 2 ^ 63) % 2 ^ 64 - 2 ^ 63

/-- Embeds the `substr` builtin (builtin_functions.go): Go strings are byte
slices, modelled as lists; `none` models the runtime panic of `s[start:end]`
when the bounds check `0 <= start <= end <= len(s)` fails.  The index `end :=
start + length` is computed in Go `int` (int64) arithmetic, hence the wrap. -/
def substr {α : Type} (s : List α) (start lengthArg : Int) : Option (List α) :=
  let start' := if start < 0 then 0 else start
  if (s.length : Int) < start' then some [] else
    let e0 := int64Wrap (start' + lengthArg)
    let e := if (s.length : Int) < e0 then (s.length : Int) else e0
    if e < start' then none
    else some ((s.drop start'.toNat).take (e - start').toNat)

instance {ε α : Type} [DecidableEq ε] [DecidableEq α] : DecidableEq (Except ε α) :=
  fun x y =>
    match x, y with
    | Except.ok a, Except.ok b =>
      if h : a = b then isTrue (by rw [h]) else isFalse fun hh => h (Except.ok.inj hh)
    | Except.error a, Except.error b =>
      if h : a = b then isTrue (by rw [h]) else isFalse fun hh => h (Except.error.inj hh)
    | Except.ok _, Except.error _ => isFalse fun hh => Except.noConfusion hh
    | Except.error _, Except.ok _ => isFalse fun hh => Except.noConfusion hh

/-- An in-flight HTTP request, as the orchestrator sees it: the resolved URL,
the rendered body bytes, and whether the single-read body stream has been
consumed (Go's transport fully reads and closes `req.Body` on dispatch). -/
structure GoRequest where
  url : String
  bodyBytes : String
  consumed : Bool
deriving DecidableEq

/-- An HTTP response captured as status plus buffered body bytes. -/
structure GoResponse where
  status : Nat
  bodyBytes : String
deriving DecidableEq

/-- Embeds `hooks.ReadRequestBody`: reading a consumed stream yields the empty
byte string (`io.ReadAll` at EOF), and in every case the body is rebuffered
into a fresh unconsumed reader over exactly the bytes just read. -/
def readRequestBody (req : GoRequest) : String × GoRequest :=
  if req.consumed then ("", { req with bodyBytes := "", consumed := false })
  else (req.bodyBytes, { req with consumed := false })

/-- Injective stand-in for the hex sha256 digest used by `generateCacheKey`;
the claims depend only on which bytes are fed to the digest. -/
def sha256Model (s : String) : String := "sha256:" ++ toString s.length ++ ":" ++ s

/-- Embeds `client.generateCacheKey`: the digest of the request URL
concatenated with the request body bytes. -/
def generateCacheKey (req : GoRequest) (body : String) : String :=
  sha256Model (req.url ++ body)

/-- Embeds `client.CachedResponse`: captured response, body bytes and absolute
expiry instant (time modelled as a natural number of seconds). -/
structure CachedResponse where
  resp : GoResponse
  body : String
  expireTime : Nat
deriving DecidableEq

/-- Embeds `client.getFromCache`: recompute the fingerprint from URL and body,
return a copy of a fresh entry, and lazily delete a stale one. -/
def getFromCache (cache : List (String × CachedResponse)) (now : Nat)
    (req : GoRequest) (body : String) :
    Option (GoResponse × String) × List (String × CachedResponse) :=
  let key := generateCacheKey req body
  match lookupKey key cache with
  | some cached =>
    if now < cached.expireTime then (some (cached.resp, cached.body), cache)
    else (none, eraseKey key cache)
  | none => (none, cache)

/-- Embeds `client.saveToCache`: only 2xx responses are stored, keyed by the
URL/body fingerprint, with expiry `now + duration`. -/
def saveToCache (cache : List (String × CachedResponse)) (now : Nat)
    (req : GoRequest) (reqBody : String) (resp : GoResponse) (respBody : String)
    (duration : Nat) : List (String × CachedResponse) :=
  if 200 ≤ resp.status && resp.status < 300 then
    setKey (generateCacheKey req reqBody) ⟨resp, respBody, now + duration⟩ cache
  else cache

/-- Errors escaping the dispatch step: a plain (first-failure or fall-through)
error, or the wrapped max-retries-exhausted error carrying the last cause. -/
inductive RetryError where
  | plain (msg : String)
  | exhausted (maxAttempts : Int) (lastCause : String)
deriving DecidableEq

/-- Observable outcome of `doWithRetry`: the result, the number of transport
attempts actually made, and the sequence of inter-attempt sleep durations in
milliseconds. -/
structure RetryResult where
  result : Except RetryError GoResponse
  attempts : Nat
  sleeps : List Int
deriving DecidableEq

/-- Embeds the `for attempt := 0; attempt < maxAttempts; attempt++` loop of
`client.doWithRetry`.  `net attempt` is the outcome of `client.Do` on the
fresh clone used by that attempt; `remaining` counts the loop iterations left,
so `remaining = 0` at entry corresponds to the (unreachable for a positive
attempt bound) fall-through `return resp, err` after the loop. -/
def retryLoopGo (net : Nat → Except String GoResponse) (maxAtt backoff : Int) :
    Nat → Nat → Int → List Int → RetryResult
  | attempt, 0, _, sleepsAcc =>
    ⟨Except.error (RetryError.plain "loop fallthrough"), attempt, sleepsAcc⟩
  | attempt, remaining + 1, delay, sleepsAcc =>
    match net attempt with
    | Except.ok resp => ⟨Except.ok resp, attempt + 1, sleepsAcc⟩
    | Except.error msg =>
      if isRetryableError msg then
        if remaining = 0 then
          ⟨Except.error (RetryError.exhausted maxAtt msg), attempt + 1, sleepsAcc⟩
        else
          retryLoopGo net maxAtt backoff (attempt + 1) remaining (delay * backoff)
            (sleepsAcc ++ [delay])
      else ⟨Except.error (RetryError.plain msg), attempt + 1, sleepsAcc⟩

/-- Embeds `client.doWithRetry`.  Note the source-faithful statement order:
`delay := initialDelay` is executed BEFORE the zero/absent defaults are
applied, so the defaulted `initialDelay` (bound here to the deliberately
unused `_initialDelay'`) never reaches `delay` — exactly as in the source. -/
def doWithRetry (net : Nat → Except String GoResponse)
    (maxAttempts initialDelay backoffFactor : Int) : RetryResult :=
  let delay := initialDelay
  let maxAttempts' := if maxAttempts ≤ 0 then 3 else maxAttempts
  let _initialDelay' := if initialDelay ≤ 0 then 1000 else initialDelay
  let backoffFactor' := if backoffFactor ≤ 0 then 2 else backoffFactor
  retryLoopGo net maxAttempts' backoffFactor' 0 maxAttempts'.toNat delay []

/-- Errors escaping `ExecuteTemplateJSON` downstream of template rendering:
a hook failure or a dispatch failure (the source wraps both with a stage
message via `fmt.Errorf`). -/
inductive ExecError where
  | hookFailed (msg : String)
  | sendFailed (e : RetryError)
deriving DecidableEq

/-- Observable outcome of one `ExecuteTemplateJSON` call: the result, the
client's response cache afterwards, and a ghost count of network dispatches. -/
structure ExecResult where
  result : Except ExecError GoResponse
  cache : List (String × CachedResponse)
  networkCalls : Nat
deriving DecidableEq

/-- Embeds one `for _, hook := range hooks` loop: each hook receives the value
produced by the previous one and the first failure stops the chain. -/
def runChain {α : Type} : List (α → Except String α) → α → Except String α
  | [], x => Except.ok x
  | h :: rest, x =>
    match h x with
    | Except.error e => Except.error e
    | Except.ok y => runChain rest y

/-- Embeds the two consecutive hook loops of `ExecuteTemplateJSON`: first the
hooks materialized from the template's own definitions, then the client's
globally registered hooks (used for the before side and the after side). -/
def hookPhase {α : Type} (tmplHooks globalHooks : List (α → Except String α))
    (x : α) : Except String α :=
  match runChain tmplHooks x with
  | Except.error e => Except.error e
  | Except.ok y => runChain globalHooks y

/-- Embeds the dispatch-and-store tail of `ExecuteTemplateJSON` (from the
retry gate `tmplDef.Retry.Enabled && tmplDef.Retry.MaxAttempts > 0` onwards):
dispatch — through `doWithRetry`, whose per-attempt `cloneRequest` rebuffers
the original request, or directly through `client.Do`, which consumes it —
then the template and global after-hook loops, then the conditional cache
store, whose request-body bytes are re-read from the possibly consumed
stream. -/
def dispatchAndFinish
    (tmplAfter globalAfter : List (GoResponse → Except String GoResponse))
    (cachingEnabled : Bool) (ttl : Nat)
    (retryEnabled : Bool) (maxAttempts initialDelay backoffFactor : Int)
    (net : Nat → Except String GoResponse)
    (cache : List (String × CachedResponse)) (now : Nat)
    (req : GoRequest) : ExecResult :=
  let d : Except RetryError GoResponse × GoRequest × Nat :=
    if retryEnabled && decide (0 < maxAttempts) then
      let rr := doWithRetry net maxAttempts initialDelay backoffFactor
      (rr.result, { req with consumed := false }, rr.attempts)
    else
      match net 0 with
      | Except.ok resp => (Except.ok resp, { req with consumed := true }, 1)
      | Except.error msg =>
        (Except.error (RetryError.plain msg), { req with consumed := true }, 1)
  match d.1 with
  | Except.error e => ⟨Except.error (ExecError.sendFailed e), cache, d.2.2⟩
  | Except.ok resp0 =>
    match hookPhase tmplAfter globalAfter resp0 with
    | Except.error e => ⟨Except.error (ExecError.hookFailed e), cache, d.2.2⟩
    | Except.ok resp =>
      if cachingEnabled && decide (200 ≤ resp.status) && decide (resp.status < 300) then
        let rb := readRequestBody d.2.1
        ⟨Except.ok resp, saveToCache cache now rb.2 rb.1 resp resp.bodyBytes ttl, d.2.2⟩
      else ⟨Except.ok resp, cache, d.2.2⟩

/-- Embeds `client.ExecuteTemplateJSON` downstream of template rendering and
request construction (`req0` is the built request holding the rendered body).
The `_cacheKey` local reproduces the source's computed-but-never-used cache
key: the source's `getFromCache`/`saveToCache` recompute their own fingerprint
from the request URL and body, and the `keyPattern` branch renders the
never-registered template `templateID + "_cache_key"`, whose failure leaves
the raw pattern in place.  On a fresh cache hit only the client's global
after hooks run, exactly as in the source. -/
def executeTemplateJSON
    (tmplBefore globalBefore : List (GoRequest → Except String GoRequest))
    (tmplAfter globalAfter : List (GoResponse → Except String GoResponse))
    (cachingEnabled : Bool) (ttl : Nat) (keyPattern : String)
    (retryEnabled : Bool) (maxAttempts initialDelay backoffFactor : Int)
    (net : Nat → Except String GoResponse)
    (cache : List (String × CachedResponse)) (now : Nat)
    (req0 : GoRequest) : ExecResult :=
  match hookPhase tmplBefore globalBefore req0 with
  | Except.error e => ⟨Except.error (ExecError.hookFailed e), cache, 0⟩
  | Except.ok req1 =>
    if cachingEnabled then
      let rb := readRequestBody req1
      let reqBodyBytes := rb.1
      let req2 := rb.2
      let _cacheKey : String :=
        if keyPattern = "" then
          req2.url ++ (if 0 < reqBodyBytes.length then ":" ++ sha256Model reqBodyBytes else "")
        else keyPattern
      match getFromCache cache now req2 reqBodyBytes with
      | (some hit, cache1) =>
        let cachedResp : GoResponse := { hit.1 with bodyBytes := hit.2 }
        match runChain globalAfter cachedResp with
        | Except.error e => ⟨Except.error (ExecError.hookFailed e), cache1, 0⟩
        | Except.ok resp => ⟨Except.ok resp, cache1, 0⟩
      | (none, cache1) =>
        dispatchAndFinish tmplAfter globalAfter cachingEnabled ttl retryEnabled
          maxAttempts initialDelay backoffFactor net cache1 now req2
    else
      dispatchAndFinish tmplAfter globalAfter cachingEnabled ttl retryEnabled
        maxAttempts initialDelay backoffFactor net cache now req1

/-- Errors of the template engine's public contract (template.go): the
not-found error of `Execute`, its wrapped execution error, and the
invalid-JSON error of `RenderJSONTemplate`. -/
inductive EngErr where
  | notFound (name : String)
  | execFailed (msg : String)
  | invalidJSON (content : String)
deriving DecidableEq

/-- Embeds `template.Engine`: the name-to-compiled-template map (a compiled
template is abstracted to its render function over the identity of the data
argument, since `text/template` execution is an external collaborator), the
memoization cache of `RenderJSONTemplate`, and a ghost counter of how many
times `RenderJSONTemplate` actually invoked rendering. -/
structure Engine where
  templates : List (String × (Nat → Except String String))
  cache : List (String × String)
  renders : Nat

/-- Embeds the cache key `fmt.Sprintf("%s_%p", name, data)` of
`RenderJSONTemplate`: template name joined with the data argument's pointer
identity (modelled as a natural number). -/
def cacheKeyOf (name : String) (dataId : Nat) : String :=
  name ++ "_0x" ++ toString dataId

/-- Embeds `Engine.AddTemplate` for a successfully compiled template: store
the new compiled template under `name`, replacing any prior one, and run the
source's cache cleanup `delete(e.cache, name)` — which deletes under the bare
name, exactly as written. -/
def addTemplate (e : Engine) (name : String) (fn : Nat → Except String String) :
    Engine :=
  { e with templates := setKey name fn e.templates, cache := eraseKey name e.cache }

/-- Embeds `Engine.Execute`: look the template up and run it on the data,
wrapping the two failure modes. -/
def execute (e : Engine) (name : String) (dataId : Nat) : Except EngErr String :=
  match lookupKey name e.templates with
  | none => Except.error (EngErr.notFound name)
  | some fn =>
    match fn dataId with
    | Except.error msg => Except.error (EngErr.execFailed msg)
    | Except.ok s => Except.ok s

/-- Embeds `Engine.RenderJSONTemplate`.  `valid` abstracts the stdlib check
`json.Unmarshal(renderedJSON, ...) == nil`.  A cached result for the same
(name, data identity) key is returned as is; otherwise the template is
rendered (bumping the ghost `renders` counter), validated, and memoized only
when valid. -/
def renderJSONTemplate (valid : String → Bool) (e : Engine) (name : String)
    (dataId : Nat) : Except EngErr String × Engine :=
  let key := cacheKeyOf name dataId
  match lookupKey key e.cache with
  | some cachedResult => (Except.ok cachedResult, e)
  | none =>
    match execute e name dataId with
    | Except.error er => (Except.error er, { e with renders := e.renders + 1 })
    | Except.ok s =>
      if valid s then
        (Except.ok s, { e with cache := setKey key s e.cache, renders := e.renders + 1 })
      else
        (Except.error (EngErr.invalidJSON s), { e with renders := e.renders + 1 })

/-- All byte strings stored in the engine's memoization cache pass the JSON
validity check. -/
def cacheAllValid (valid : String → Bool) (e : Engine) : Prop :=
  ∀ kb ∈ e.cache, valid kb.2 = true

/-- A request as the field-transform hook sees it: the HTTP method and the
optional buffered body bytes (`req.Body == nil` is `none`). -/
structure HookRequest where
  method : String
  body : Option String
deriving DecidableEq

/-- One iteration of the `for srcField, destField := range h.TransformMap`
loop of `FieldTransformHook.Before`: when the source field is present its
value is stored under the destination field (`data[destField] = val`), the
source field is deleted, and the `transformed` flag is raised. -/
def ftStep {V : Type} (st : List (String × V) × Bool) (kv : String × String) :
    List (String × V) × Bool :=
  match lookupKey kv.1 st.1 with
  | some v => (eraseKey kv.1 (setKey kv.2 v st.1), true)
  | none => st

/-- Embeds `FieldTransformHook.Before` (mapping-parameterized version, with
its `transformed` flag).  `parseJSONBody` and `encodeJSONBody` abstract the
stdlib `json.Unmarshal` into / `json.Marshal` from a `map[string]interface{}`
(values of abstract type `V`); the transform map, iterated by Go in map
order, is modelled as an ordered list.  Non-POST/PUT requests, nil bodies and
bodies that fail to parse are returned untouched, and the body is re-encoded
only when at least one mapping key was present. -/
def fieldTransformBefore {V : Type}
    (parseJSONBody : String → Option (List (String × V)))
    (encodeJSONBody : List (String × V) → String)
    (transformMap : List (String × String))
    (req : HookRequest) : HookRequest :=
  if req.method ≠ "POST" ∧ req.method ≠ "PUT" then req
  else
    match req.body with
    | none => req
    | some bodyBytes =>
      match parseJSONBody bodyBytes with
      | none => req
      | some data =>
        let step := transformMap.foldl ftStep (data, false)
        if step.2 then { req with body := some (encodeJSONBody step.1) } else req

/-- A network that always fails with a transient connection error. -/
def refusedNet : Nat → Except String GoResponse :=
  fun _ => Except.error "connection refused"

/-- A network that always fails with the transport's bare EOF message. -/
def eofNet : Nat → Except String GoResponse := fun _ => Except.error "EOF"

/-- A network that always answers 200 with the given body. -/
def okNet (body : String) : Nat → Except String GoResponse :=
  fun _ => Except.ok ⟨200, body⟩

/-- First caching-enabled execution (no retry): URL "u", rendered body "B",
empty cache, time 0, TTL 60 seconds. -/
def c3run1 : ExecResult :=
  executeTemplateJSON [] [] [] [] true 60 "" false 0 0 0 (okNet "RESP") [] 0
    ⟨"u", "B", false⟩

/-- Second, identical execution 10 seconds later against the cache left by
the first. -/
def c3run2 : ExecResult :=
  executeTemplateJSON [] [] [] [] true 60 "" false 0 0 0 (okNet "RESP")
    c3run1.cache 10 ⟨"u", "B", false⟩

/-- Caching-enabled execution with the non-empty key pattern "K", URL "u1". -/
def c4run1 : ExecResult :=
  executeTemplateJSON [] [] [] [] true 60 "K" false 0 0 0 (okNet "R1") [] 0
    ⟨"u1", "", false⟩

/-- Execution with the same key pattern "K" but URL "u2", 10 seconds later,
against the cache left by the first. -/
def c4run2 : ExecResult :=
  executeTemplateJSON [] [] [] [] true 60 "K" false 0 0 0 (okNet "R2")
    c4run1.cache 10 ⟨"u2", "", false⟩

/-- The trivially accepting JSON validity check, for concrete runs whose
rendered outputs are valid JSON. -/
def alwaysValid : String → Bool := fun _ => true

/-- Engine after `AddTemplate("t", A)` where template A renders to "A". -/
def c5e1 : Engine := addTemplate ⟨[], [], 0⟩ "t" (fun _ => Except.ok "A")

/-- First render of "t" against the data object with identity 7. -/
def c5r1 : Except EngErr String × Engine := renderJSONTemplate alwaysValid c5e1 "t" 7

/-- Engine after the replacing `AddTemplate("t", B)`, template B rendering to
"B". -/
def c5e3 : Engine := addTemplate c5r1.2 "t" (fun _ => Except.ok "B")

/-- A one-template engine whose template "t" renders to "RB". -/
def c7Engine : Engine := ⟨[("t", fun _ => Except.ok "RB")], [], 0⟩

/-- The same engine after one memoizing render for data identity 5. -/
def c7Engine' : Engine := ⟨[("t", fun _ => Except.ok "RB")], [("t_0x5", "RB")], 1⟩

/-- Concrete stand-in for `json.Unmarshal` on the two document bodies used by
the field-transform witness: "B1" holds user/password fields, "B2" holds an
unrelated field, anything else is not a JSON object. -/
def parseFx : String → Option (List (String × String)) := fun s =>
  if s = "B1" then some [("user", "X"), ("password", "Y")]
  else if s = "B2" then some [("k", "v")]
  else none

/-- Concrete stand-in for `json.Marshal` of a string-valued object. -/
def encFx : List (String × String) → String :=
  fun l => String.join (l.map (fun kv => kv.1 ++ "=" ++ kv.2 ++ ";"))

theorem lookupKey_setKey {α : Type} (k key : String) (v : α)
    (l : List (String × α)) :
    lookupKey k (setKey key v l) = if key = k then some v else lookupKey k l := by
  induction l with
  | nil => simp [setKey, lookupKey]
  | cons hd tl ih =>
    obtain ⟨k', v'⟩ := hd
    by_cases h : k' = key
    · subst h
      by_cases hk : k' = k <;> simp [setKey, lookupKey, hk]
    · by_cases hk : k' = k
      · subst hk
        have : ¬ key = k' := fun hh => h hh.symm
        simp [setKey, lookupKey, h, this]
      · simp [setKey, lookupKey, h, hk, ih]

theorem mem_of_lookupKey {α : Type} {k : String} {b : α} :
    ∀ {l : List (String × α)}, lookupKey k l = some b → (k, b) ∈ l := by
  intro l
  induction l with
  | nil => intro h; simp [lookupKey] at h
  | cons hd tl ih =>
    obtain ⟨k', v'⟩ := hd
    intro h
    by_cases hk : k' = k
    · subst hk
      simp [lookupKey] at h
      subst h
      exact List.mem_cons_self _ _
    · simp [lookupKey, hk] at h
      exact List.mem_cons_of_mem _ (ih h)

theorem mem_setKey {α : Type} {kb : String × α} {key : String} {v : α} :
    ∀ {l : List (String × α)}, kb ∈ setKey key v l → kb = (key, v) ∨ kb ∈ l := by
  intro l
  induction l with
  | nil => intro h; simp [setKey] at h; exact Or.inl h
  | cons hd tl ih =>
    obtain ⟨k', v'⟩ := hd
    intro h
    by_cases hk : k' = key
    · simp only [setKey, if_pos hk] at h
      rcases List.mem_cons.mp h with h1 | h1
      · exact Or.inl h1
      · exact Or.inr (List.mem_cons_of_mem _ h1)
    · simp only [setKey, if_neg hk] at h
      rcases List.mem_cons.mp h with h1 | h1
      · exact Or.inr (h1 ▸ List.mem_cons_self _ _)
      · rcases ih h1 with h2 | h2
        · exact Or.inl h2
        · exact Or.inr (List.mem_cons_of_mem _ h2)

theorem mem_eraseKey {α : Type} {kb : String × α} {key : String} :
    ∀ {l : List (String × α)}, kb ∈ eraseKey key l → kb ∈ l := by
  intro l
  induction l with
  | nil => intro h; simp [eraseKey] at h
  | cons hd tl ih =>
    obtain ⟨k', v'⟩ := hd
    intro h
    by_cases hk : k' = key
    · simp only [eraseKey, if_pos hk] at h
      exact List.mem_cons_of_mem _ h
    · simp only [eraseKey, if_neg hk] at h
      rcases List.mem_cons.mp h with h1 | h1
      · exact h1 ▸ List.mem_cons_self _ _
      · exact List.mem_cons_of_mem _ (ih h1)

theorem runChain_cons {α : Type} (h : α → Except String α)
    (rest : List (α → Except String α)) (x : α) :
    runChain (h :: rest) x
      = match h x with
        | Except.error e => Except.error e
        | Except.ok y => runChain rest y := rfl

theorem hookPhase_eq_append {α : Type} (tmplHooks globalHooks : List (α → Except String α))
    (x : α) : hookPhase tmplHooks globalHooks x = runChain (tmplHooks ++ globalHooks) x := by
  induction tmplHooks generalizing x with
  | nil => rfl
  | cons h rest ih =>
    show hookPhase (h :: rest) globalHooks x = runChain ((h :: rest) ++ globalHooks) x
    simp only [hookPhase, runChain_cons, List.cons_append]
    cases h x with
    | error e => rfl
    | ok y => exact ih y

theorem ftFold_noMatch {V : Type} (data : List (String × V)) :
    ∀ (tm : List (String × String)), (∀ kv ∈ tm, lookupKey kv.1 data = none) →
      tm.foldl ftStep (data, false) = (data, false) := by
  intro tm
  induction tm with
  | nil => intro _; rfl
  | cons kv t ih =>
    intro h
    have h1 : lookupKey kv.1 data = none := h kv (List.mem_cons_self _ _)
    have hstep : ftStep (data, false) kv = (data, false) := by simp [ftStep, h1]
    rw [List.foldl_cons, hstep]
    exact ih (fun kv' hkv' => h kv' (List.mem_cons_of_mem _ hkv'))

/-- C1: with retry enabled, a permanently failing transient error and
`maxAttempts = 3, initialDelay = 0 (absent), backoffFactor = 2`, the code
sleeps 0ms then 0ms instead of the claimed defaulted 1000ms then 2000ms,
because `delay := initialDelay` runs before the default is applied; and with
`maxAttempts = 0` (absent) the `MaxAttempts > 0` gate in
`ExecuteTemplateJSON` skips `doWithRetry` entirely, making a single attempt
instead of the claimed defaulted 3.  With all three fields explicitly
positive the claimed behaviour (3 attempts, 1000/2000ms sleeps, wrapped
exhaustion error carrying the last cause) does hold, as the last conjuncts
record. -/
theorem retryDefaults_bug :
    (executeTemplateJSON [] [] [] [] false 0 "" true 0 1000 2 refusedNet [] 0
        ⟨"u", "B", false⟩).networkCalls = 1
    ∧ (doWithRetry refusedNet 3 0 2).sleeps = [0, 0]
    ∧ (doWithRetry refusedNet 3 0 2).attempts = 3
    ∧ (doWithRetry refusedNet 3 1000 2).sleeps = [1000, 2000]
    ∧ (doWithRetry refusedNet 3 1000 2).attempts = 3
    ∧ (doWithRetry refusedNet 3 1000 2).result
        = Except.error (RetryError.exhausted 3 "connection refused") := by decide

/-- C2: the pattern table of `isRetryableError` lists "EOF", but the match is
`strings.Contains(strings.ToLower(errMsg), pattern)` and a lowercased message
never contains the uppercase pattern, so an EOF transport error is classified
non-retryable and `doWithRetry` returns it after a single attempt; the other
signatures, being lowercase patterns, behave as claimed. -/
theorem eofNotRetryable_bug :
    isRetryableError "EOF" = false
    ∧ isRetryableError "unexpected EOF" = false
    ∧ (doWithRetry eofNet 3 1000 2).attempts = 1
    ∧ (doWithRetry eofNet 3 1000 2).result = Except.error (RetryError.plain "EOF")
    ∧ isRetryableError "connection refused" = true
    ∧ isRetryableError "dial tcp: lookup x: no such host" = true := by decide

/-- C3: on the direct (non-retry) dispatch path the transport consumes the
request body, so the cache-store step re-reads an empty body and stores the
entry under the fingerprint of (URL, "") while lookups use (URL, body); a
second identical caching-enabled execution issued well before TTL therefore
misses the cache and dispatches over the network again (networkCalls = 1
instead of the claimed 0). -/
theorem cacheStoreKey_bug :
    c3run1.result = Except.ok ⟨200, "RESP"⟩
    ∧ c3run1.cache
        = [(generateCacheKey ⟨"u", "", false⟩ "", ⟨⟨200, "RESP"⟩, "RESP", 60⟩)]
    ∧ lookupKey (generateCacheKey ⟨"u", "B", false⟩ "B") c3run1.cache = none
    ∧ c3run1.networkCalls = 1
    ∧ c3run2.networkCalls = 1 := by decide

/-- C4: the rendered keyPattern never serves as the cache fingerprint — the
local `cacheKey` of `ExecuteTemplateJSON` is computed and discarded, and
`getFromCache`/`saveToCache` recompute a digest of (URL, body).  After a run
with keyPattern "K" the cache holds the URL/body digest and no entry "K", a
second run with the same pattern but another URL dispatches again, and the
whole execution result is invariant under changing the keyPattern. -/
theorem keyPatternUnused_bug :
    lookupKey "K" c4run1.cache = none
    ∧ c4run1.cache = [(sha256Model "u1", ⟨⟨200, "R1"⟩, "R1", 60⟩)]
    ∧ c4run2.networkCalls = 1
    ∧ (∀ (kp kp' : String)
        (tb gb : List (GoRequest → Except String GoRequest))
        (ta ga : List (GoResponse → Except String GoResponse))
        (ce : Bool) (ttl : Nat) (re : Bool) (ma idl bf : Int)
        (net : Nat → Except String GoResponse)
        (cache : List (String × CachedResponse)) (now : Nat) (req : GoRequest),
        executeTemplateJSON tb gb ta ga ce ttl kp re ma idl bf net cache now req
          = executeTemplateJSON tb gb ta ga ce ttl kp' re ma idl bf net cache now req) := by
  refine ⟨by decide, by decide, by decide, ?_⟩
  intro kp kp' tb gb ta ga ce ttl re ma idl bf net cache now req
  rfl

/-- C5: `AddTemplate` deletes the memoization-cache entry stored under the
bare template name, but `RenderJSONTemplate` keys its entries by
`name_%p` (name plus data pointer), so the deletion never hits them: after
re-adding "t" with a template that renders "B", a render with the same data
identity still returns the stale bytes "A" from the first template, even
though direct execution of the replaced template yields "B". -/
theorem addTemplateStaleCache_bug :
    c5r1.1 = Except.ok "A"
    ∧ execute c5e3 "t" 7 = Except.ok "B"
    ∧ (renderJSONTemplate alwaysValid c5e3 "t" 7).1 = Except.ok "A"
    ∧ lookupKey (cacheKeyOf "t" 7) c5e3.cache = some "A" := by decide

/-- C10 counterexample: `substr` is not total for every non-negative length —
at `s = "ab", start = 1, length = 2^63 - 1` the Go `int` sum `start + length`
overflows to the most negative int64, the truncation test `end > len(s)`
keeps the negative index, and `s[start:end]` panics (modelled as `none`). -/
theorem substr_overflow_cex :
    substr (α := Char) ['a', 'b'] 1 (2 ^ 63 - 1) = none := by decide

/-- C10 amended: for every start and every non-negative length whose sum with
the clamped start stays below 2^63 (no int64 overflow in `end`), `substr` is
total and never slices out of range: a negative start is clamped to 0, a
start beyond the end of the string yields the empty string, and the end index
is truncated to the string length — all captured by the drop/take form of the
result. -/
theorem substr_total_amended {α : Type} (s : List α) (start lengthArg : Int)
    (hlen : 0 ≤ lengthArg)
    (hov : (if start < 0 then 0 else start) + lengthArg < 2 ^ 63) :
    substr s start lengthArg
      = some ((s.drop (if start < 0 then 0 else start).toNat).take lengthArg.toNat) := by
  simp only [substr]
  set a : Int := if start < 0 then 0 else start with ha
  have ha0 : 0 ≤ a := by rw [ha]; split <;> omega
  by_cases h1 : (s.length : Int) < a
  · rw [if_pos h1]
    have h2 : s.length ≤ a.toNat := by omega
    rw [List.drop_eq_nil_of_le h2, List.take_nil]
  · rw [if_neg h1]
    have hwrap : int64Wrap (a + lengthArg) = a + lengthArg := by
      simp only [int64Wrap]
      have hmod : (a + lengthArg + 2 ^ 63) % 2 ^ 64 = a + lengthArg + 2 ^ 63 :=
        Int.emod_eq_of_lt (by omega) (by omega)
      omega
    rw [hwrap]
    by_cases h2 : (s.length : Int) < a + lengthArg
    · rw [if_pos h2, if_neg h1]
      have h3 : (s.drop a.toNat).length ≤ ((s.length : Int) - a).toNat := by
        rw [List.length_drop]; omega
      have h4 : (s.drop a.toNat).length ≤ lengthArg.toNat := by
        rw [List.length_drop]; omega
      rw [List.take_of_length_le h3, List.take_of_length_le h4]
    · rw [if_neg h2]
      rw [if_neg (show ¬ a + lengthArg < a from by omega)]
      have h5 : a + lengthArg - a = lengthArg := by omega
      rw [h5]

/-- C10 witness: a negative start is clamped and the result is the plain
three-element slice from the front. -/
theorem substr_clamp_witness :
    substr (α := Char) ['h', 'e', 'l', 'l', 'o'] (-2) 3 = some ['h', 'e', 'l'] := by
  rw [substr_total_amended (α := Char) ['h', 'e', 'l', 'l', 'o'] (-2) 3 (by decide)
    (by decide)]
  decide

/-- C6: hook chains run strictly in declaration order — the hooks materialized
from the template's own definitions followed by the client's global hooks form
one sequential chain (conjunct 1, used for both the request and the response
side); each hook receives the value produced by the previous one (conjunct 2);
the first failing hook aborts the remainder of the chain (conjunct 3); a
before-chain failure aborts the whole execution with a hook error and no
network dispatch (conjunct 4); and an after-chain failure aborts the whole
execution after dispatch (conjunct 5, stated on the direct dispatch path). -/
theorem hookChainOrder :
    (∀ (α : Type) (tmplHooks globalHooks : List (α → Except String α)) (x : α),
        hookPhase tmplHooks globalHooks x = runChain (tmplHooks ++ globalHooks) x)
    ∧ (∀ (α : Type) (h : α → Except String α) (rest : List (α → Except String α)) (x : α),
        runChain (h :: rest) x
          = match h x with
            | Except.error e => Except.error e
            | Except.ok y => runChain rest y)
    ∧ (∀ (α : Type) (h : α → Except String α) (rest : List (α → Except String α))
        (x : α) (e : String),
        h x = Except.error e → runChain (h :: rest) x = Except.error e)
    ∧ (∀ (tb gb : List (GoRequest → Except String GoRequest))
        (ta ga : List (GoResponse → Except String GoResponse))
        (ce : Bool) (ttl : Nat) (kp : String) (re : Bool) (ma idl bf : Int)
        (net : Nat → Except String GoResponse)
        (cache : List (String × CachedResponse)) (now : Nat)
        (req : GoRequest) (e : String),
        hookPhase tb gb req = Except.error e →
        executeTemplateJSON tb gb ta ga ce ttl kp re ma idl bf net cache now req
          = ⟨Except.error (ExecError.hookFailed e), cache, 0⟩)
    ∧ (∀ (ta ga : List (GoResponse → Except String GoResponse))
        (ce : Bool) (ttl : Nat) (ma idl bf : Int)
        (net : Nat → Except String GoResponse)
        (cache : List (String × CachedResponse)) (now : Nat)
        (req : GoRequest) (resp0 : GoResponse) (e : String),
        net 0 = Except.ok resp0 →
        hookPhase ta ga resp0 = Except.error e →
        dispatchAndFinish ta ga ce ttl false ma idl bf net cache now req
          = ⟨Except.error (ExecError.hookFailed e), cache, 1⟩) := by
  refine ⟨?_, ?_, ?_, ?_, ?_⟩
  · intro α t g x
    exact hookPhase_eq_append t g x
  · intro α h rest x
    rfl
  · intro α h rest x e he
    rw [runChain_cons, he]
  · intro tb gb ta ga ce ttl kp re ma idl bf net cache now req e hbefore
    simp only [executeTemplateJSON, hbefore]
  · intro ta ga ce ttl ma idl bf net cache now req resp0 e hnet hafter
    simp only [dispatchAndFinish, Bool.false_and, Bool.false_eq_true, if_false, hnet, hafter]

/-- C6 witness: a two-level chain concatenates template hooks before global
hooks; a failing template before-hook aborts `ExecuteTemplateJSON` with a hook
error and no dispatch; a failing after-hook aborts the execution after the
single dispatch. -/
theorem hookChainOrder_witness :
    hookPhase [fun (r : GoRequest) => Except.ok r] [] (⟨"u", "", false⟩ : GoRequest)
      = runChain ([fun (r : GoRequest) => Except.ok r] ++ []) ⟨"u", "", false⟩
    ∧ executeTemplateJSON [fun _ => Except.error "boom"] [] [] [] false 0 "" false 0 0 0
        (okNet "") [] 0 ⟨"u", "", false⟩
      = ⟨Except.error (ExecError.hookFailed "boom"), [], 0⟩
    ∧ dispatchAndFinish [fun _ => Except.error "afterboom"] [] false 0 false 0 0 0
        (okNet "R") [] 0 ⟨"u", "", false⟩
      = ⟨Except.error (ExecError.hookFailed "afterboom"), [], 1⟩ :=
  ⟨hookChainOrder.1 GoRequest [fun r => Except.ok r] [] ⟨"u", "", false⟩,
   hookChainOrder.2.2.2.1 [fun _ => Except.error "boom"] [] [] [] false 0 "" false 0 0 0
     (okNet "") [] 0 ⟨"u", "", false⟩ "boom" rfl,
   hookChainOrder.2.2.2.2 [fun _ => Except.error "afterboom"] [] false 0 0 0 0
     (okNet "R") [] 0 ⟨"u", "", false⟩ ⟨200, "R"⟩ "afterboom" rfl rfl⟩

/-- C7: whenever the memoization cache holds only byte strings passing the
JSON validity check, a successful `RenderJSONTemplate` returns bytes passing
the check — on the rendering path because it validates before returning, and
on the cache-hit path by the invariant — and both the resulting engine and
any later `AddTemplate` preserve the invariant, so invalid output is never
returned to the caller on either path. -/
theorem renderJSONValid (valid : String → Bool) (e : Engine) (name : String)
    (dataId : Nat) (b : String) (e' : Engine)
    (hinv : cacheAllValid valid e)
    (hrun : renderJSONTemplate valid e name dataId = (Except.ok b, e')) :
    valid b = true ∧ cacheAllValid valid e'
      ∧ ∀ (n : String) (fn : Nat → Except String String),
          cacheAllValid valid (addTemplate e' n fn) := by
  have hmain : valid b = true ∧ cacheAllValid valid e' := by
    simp only [renderJSONTemplate] at hrun
    split at hrun
    · rename_i cachedResult hc
      injection hrun with h1 h2
      injection h1 with h1
      subst h1
      subst h2
      exact ⟨hinv _ (mem_of_lookupKey hc), hinv⟩
    · rename_i hc
      split at hrun
      · exact absurd hrun (by simp)
      · rename_i s he
        split at hrun
        · rename_i hv
          injection hrun with h1 h2
          injection h1 with h1
          subst h1
          subst h2
          refine ⟨hv, ?_⟩
          intro kb hkb
          rcases mem_setKey hkb with h3 | h3
          · rw [h3]
            exact hv
          · exact hinv _ h3
        · exact absurd hrun (by simp)
  refine ⟨hmain.1, hmain.2, ?_⟩
  intro n fn kb hkb
  exact hmain.2 _ (mem_eraseKey hkb)

/-- C7 witness: a concrete render through the one-template engine returns
valid bytes and leaves a valid cache, also after a further `AddTemplate`. -/
theorem renderJSONValid_witness :
    alwaysValid "RB" = true ∧ cacheAllValid alwaysValid c7Engine'
      ∧ ∀ (n : String) (fn : Nat → Except String String),
          cacheAllValid alwaysValid (addTemplate c7Engine' n fn) :=
  renderJSONValid alwaysValid c7Engine "t" 5 "RB" c7Engine'
    (fun _ _ => rfl) rfl

/-- C8: after a successful `RenderJSONTemplate` call, repeating the call with
the same template name and the same data-object identity returns the
byte-identical result from the memoization cache and leaves the engine —
including its ghost render counter — unchanged, so rendering is not
re-invoked. -/
theorem renderJSONMemo (valid : String → Bool) (e : Engine) (name : String)
    (dataId : Nat) (b : String) (e1 : Engine)
    (hrun : renderJSONTemplate valid e name dataId = (Except.ok b, e1)) :
    renderJSONTemplate valid e1 name dataId = (Except.ok b, e1) := by
  have hkey : lookupKey (cacheKeyOf name dataId) e1.cache = some b := by
    simp only [renderJSONTemplate] at hrun
    split at hrun
    · rename_i cachedResult hc
      injection hrun with h1 h2
      injection h1 with h1
      subst h1
      subst h2
      exact hc
    · rename_i hc
      split at hrun
      · exact absurd hrun (by simp)
      · rename_i s he
        split at hrun
        · rename_i hv
          injection hrun with h1 h2
          injection h1 with h1
          subst h1
          subst h2
          simp [lookupKey_setKey]
        · exact absurd hrun (by simp)
  simp only [renderJSONTemplate, hkey]

/-- C8 witness: the second render of "t" against the same data identity is
served from the cache, byte-identical, with the engine unchanged. -/
theorem renderJSONMemo_witness :
    renderJSONTemplate alwaysValid c7Engine' "t" 5 = (Except.ok "RB", c7Engine') :=
  renderJSONMemo alwaysValid c7Engine "t" 5 "RB" c7Engine' rfl

/-- C9: the field-transform hook renames present mapping keys — for every
POST or PUT request whose body parses to the user/password object, under the
user-to-phone mapping the rewritten body is exactly the encoding of the
phone/password object (conjunct 1); it returns the request untouched, without
re-encoding, when no mapping key is present in the parsed object
(conjunct 2); it passes bodies that do not parse as a JSON object through
untouched (conjunct 3); and it leaves GET requests untouched regardless of
body content (conjunct 4). -/
theorem fieldTransformSpec :
    (∀ (V : Type) (parse : String → Option (List (String × V)))
        (enc : List (String × V) → String) (x y : V) (b : String) (req : HookRequest),
        req.method = "POST" ∨ req.method = "PUT" → req.body = some b →
        parse b = some [("user", x), ("password", y)] →
        fieldTransformBefore parse enc [("user", "phone")] req
          = { req with body := some (enc [("password", y), ("phone", x)]) })
    ∧ (∀ (V : Type) (parse : String → Option (List (String × V)))
        (enc : List (String × V) → String) (tm : List (String × String))
        (req : HookRequest) (b : String) (data : List (String × V)),
        req.body = some b → parse b = some data →
        (∀ kv ∈ tm, lookupKey kv.1 data = none) →
        fieldTransformBefore parse enc tm req = req)
    ∧ (∀ (V : Type) (parse : String → Option (List (String × V)))
        (enc : List (String × V) → String) (tm : List (String × String))
        (req : HookRequest) (b : String),
        req.body = some b → parse b = none →
        fieldTransformBefore parse enc tm req = req)
    ∧ (∀ (V : Type) (parse : String → Option (List (String × V)))
        (enc : List (String × V) → String) (tm : List (String × String))
        (req : HookRequest),
        req.method = "GET" → fieldTransformBefore parse enc tm req = req) := by
  refine ⟨?_, ?_, ?_, ?_⟩
  · intro V parse enc x y b req hm hb hp
    obtain ⟨m, bd⟩ := req
    simp only at hm hb
    subst hb
    rcases hm with hm | hm <;> subst hm <;>
      simp [fieldTransformBefore, hp, ftStep, lookupKey, setKey, eraseKey]
  · intro V parse enc tm req b data hb hp htm
    obtain ⟨m, bd⟩ := req
    simp only at hb
    subst hb
    by_cases hg : m ≠ "POST" ∧ m ≠ "PUT"
    · simp [fieldTransformBefore, hg]
    · simp [fieldTransformBefore, hg, hp, ftFold_noMatch data tm htm]
  · intro V parse enc tm req b hb hp
    obtain ⟨m, bd⟩ := req
    simp only at hb
    subst hb
    by_cases hg : m ≠ "POST" ∧ m ≠ "PUT"
    · simp [fieldTransformBefore, hg]
    · simp [fieldTransformBefore, hg, hp]
  · intro V parse enc tm req hm
    obtain ⟨m, bd⟩ := req
    simp only at hm
    subst hm
    simp [fieldTransformBefore]

/-- C9 witness: the concrete user/password body is rewritten to the
phone/password object on both a POST and a PUT request, while a body without
mapping keys, a non-JSON body and a GET request pass through untouched. -/
theorem fieldTransformSpec_witness :
    fieldTransformBefore parseFx encFx [("user", "phone")] ⟨"POST", some "B1"⟩
      = ⟨"POST", some (encFx [("password", "Y"), ("phone", "X")])⟩
    ∧ fieldTransformBefore parseFx encFx [("user", "phone")] ⟨"PUT", some "B1"⟩
      = ⟨"PUT", some (encFx [("password", "Y"), ("phone", "X")])⟩
    ∧ fieldTransformBefore parseFx encFx [("user", "phone")] ⟨"POST", some "B2"⟩
      = ⟨"POST", some "B2"⟩
    ∧ fieldTransformBefore parseFx encFx [("user", "phone")] ⟨"POST", some "ZZ"⟩
      = ⟨"POST", some "ZZ"⟩
    ∧ fieldTransformBefore parseFx encFx [("user", "phone")] ⟨"GET", some "B1"⟩
      = ⟨"GET", some "B1"⟩ :=
  ⟨fieldTransformSpec.1 String parseFx encFx "X" "Y" "B1" ⟨"POST", some "B1"⟩
     (Or.inl rfl) rfl rfl,
   fieldTransformSpec.1 String parseFx encFx "X" "Y" "B1" ⟨"PUT", some "B1"⟩
     (Or.inr rfl) rfl rfl,
   fieldTransformSpec.2.1 String parseFx encFx [("user", "phone")] ⟨"POST", some "B2"⟩
     "B2" [("k", "v")] rfl rfl (by decide),
   fieldTransformSpec.2.2.1 String parseFx encFx [("user", "phone")] ⟨"POST", some "ZZ"⟩
     "ZZ" rfl rfl,
   fieldTransformSpec.2.2.2 String parseFx encFx [("user", "phone")] ⟨"GET", some "B1"⟩
     rfl⟩

end RenderAPI
